import Mathlib

/-!
Shallow embedding of `blinkist_free_dl.py`, a single-file batch job that
fetches one "free daily" book, writes a markdown text document, per-chapter
m4a audio files with metadata tags, and a cover image.

Strings are Lean `String`s; the Python string operations used by the script
(`str.split`, `str.rstrip`, `in`, f-string interpolation of integers) are
implemented below as structurally recursive functions on `List Char` so that
they compute in the kernel. The filesystem is a map from paths to file
contents; the network is a function from attempt index / URL to a response.
-/

namespace Blinkist

/-! ## Python string primitives -/

/-- Python `str.split(sep)` for a single-character separator: splits the
character list at every occurrence of `sep`; always returns a non-empty list
of (possibly empty) segments. -/
def splitOnChar (sep : Char) : List Char → List (List Char)
  | [] => [[]]
  | c :: rest =>
    let r := splitOnChar sep rest
    if c = sep then [] :: r
    else match r with
      | [] => [[c]]
      | seg :: segs => (c :: seg) :: segs

/-- Python `s.split(sep)[-1]`: the last segment. -/
def lastSegment (s : String) : List Char :=
  (splitOnChar '/' s.data).getLastD []

/-- Python `str.rstrip(chars)`: removes trailing characters that belong to
the character set `cs` (note: a set of characters, not a suffix). -/
def rstripChars (cs : List Char) (l : List Char) : List Char :=
  (l.reverse.dropWhile (fun c => c ∈ cs)).reverse

/-- Boolean test that `pat` is an initial run of `l`. -/
def listStartsWith : List Char → List Char → Bool
  | [], _ => true
  | _ :: _, [] => false
  | p :: ps, c :: cs => p = c && listStartsWith ps cs

/-- Python `pat in s` for strings: `pat` occurs contiguously in `l`. -/
def listContainsSub (pat : List Char) (l : List Char) : Bool :=
  l.tails.any (fun t => listStartsWith pat t)

/-- Python `s.endswith(suf)`. -/
def listEndsWith (suf l : List Char) : Bool :=
  listStartsWith suf.reverse l.reverse

/-- Strict lexicographic order on character lists, the order in which
filenames are listed by a directory listing. -/
def lexLt : List Char → List Char → Bool
  | [], [] => false
  | [], _ :: _ => true
  | _ :: _, [] => false
  | a :: as, b :: bs => a < b || (a = b && lexLt as bs)

/-! ## Data model (from the API responses consumed by the script) -/

/-- One entry of `book['image']['sources']`: a base `src` URL and the URLs of
its `srcset` variant mapping (only the values are used by the script). -/
structure ImageSource where
  src : String
  srcset : List String
deriving DecidableEq, Repr

/-- The `book` object of the free-daily payload, restricted to the fields the
script reads. -/
structure Book where
  title : String
  author : String
  url : String
  sources : List ImageSource
deriving DecidableEq, Repr

/-- A full chapter (`get_chapter` result), restricted to the fields the
script reads. -/
structure Chapter where
  order_no : Nat
  action_title : String
  text : String
  signed_audio_url : String
deriving DecidableEq, Repr

/-- An HTTP response: status code and raw body bytes. -/
structure Response where
  status_code : Nat
  content : String
deriving DecidableEq, Repr

/-! ## Filesystem and tag-store model -/

/-- Filesystem: maps a path to the content of the file stored there, if any. -/
def FS : Type := String → Option String

/-- Write `v` at path `p`. -/
def FS.update (fs : FS) (p v : String) : FS :=
  fun q => if q = p then some v else fs q

/-- Python `Path.exists()` at `p`. -/
def FS.existsAt (fs : FS) (p : String) : Bool :=
  (fs p).isSome

/-- MP4 tag atoms used by the script. Each field is `none` while the atom has
never been assigned, and `some v` once `tags[atom] = v` ran, where `v` is the
assigned Python value (`none` models Python `None`). -/
structure M4ATags where
  art : Option (Option String) := none
  alb : Option (Option String) := none
  nam : Option (Option String) := none
deriving DecidableEq, Repr

/-- Tag store: the MP4 tag atoms carried by the container at each path. -/
def TagStore : Type := String → M4ATags

/-- Python truthiness of an optional string: `None` and `""` are falsy. -/
def truthy : Option String → Bool
  | none => false
  | some s => !s.isEmpty

/-! ## Constants of the script -/

def CLOUDFLARE_MAX_ATTEMPTS : Nat := 3

def DOWNLOAD_DIR : String := "C:/Downloads"

/-- Characters invalid in Windows file names.

Modelled from the spec: `sanitize_filepath` comes from the external
`pathvalidate` package, which is not part of the repository source; per the
spec the sanitizer "must strip/escape characters invalid on the target
filesystem", and `pathvalidate`'s default replacement text is the empty
string, i.e. removal. -/
def invalidFileChars : List Char := [':', '*', '?', '"', '<', '>', '|']

/-- Modelled from the spec: `pathvalidate.sanitize_filepath` with its default
empty replacement text removes every filesystem-invalid character from the
name. -/
def sanitize_filepath (s : String) : String :=
  ⟨s.data.filter (fun c => !(c ∈ invalidFileChars))⟩

/-- Function `get_book_dir`: `DOWNLOAD_DIR / sanitize_filepath(f"{date} - {title}")`.
The run date (`datetime.today().strftime('%Y-%m-%d')`) is passed explicitly. -/
def get_book_dir (today : String) (book : Book) : String :=
  DOWNLOAD_DIR ++ "/" ++ sanitize_filepath (today ++ " - " ++ book.title)

/-! ## Text renderer -/

/-- Rendering of a sequence number in filenames and headings: the f-strings
`f"0{chapter['order_no']}"` interpolate the integer after a literal `'0'`
character. -/
def renderSeq (n : Nat) : String := "0" ++ Nat.repr n

/-- Per-chapter audio filename `f"0{chapter_data['order_no']}.m4a"`. -/
def chapterAudioFilename (n : Nat) : String := renderSeq n ++ ".m4a"

/-- One chapter's block of the markdown document: heading plus body. -/
def chapterBlock (chapter : Chapter) : String :=
  "## Blink " ++ renderSeq chapter.order_no ++ " - " ++ chapter.action_title ++ "\n\n"
    ++ chapter.text ++ "\n\n"

/-- Function `create_markdown_text`: starts from the title heading plus the
italic author line, appends one block per chapter in list order (the Python
`+=` loop is a left fold), and appends the trailing source line. -/
def create_markdown_text (book : Book) (chapters : List Chapter) : String :=
  let header := "# " ++ book.title ++ "\n\n" ++ ("_" ++ book.author ++ "_\n\n")
  let withChapters :=
    chapters.foldl (fun acc chapter => acc ++ chapterBlock chapter) header
  withChapters ++ ("Source: " ++ book.url ++ "\n\n")

/-! ## Request wrapper with tenacity retry -/

/-- An exception raised while performing one underlying GET attempt. -/
inductive ScrErr where
  /-- `cloudscraper.exceptions.CloudflareChallengeError`. -/
  | challenge : ScrErr
  /-- `requests.HTTPError` raised by `response.raise_for_status()`. -/
  | httpError (status : Nat) : ScrErr
  /-- Any other exception from the HTTP layer. -/
  | other : ScrErr
deriving DecidableEq, Repr

/-- How a call to the `tenacity`-decorated `_request` can fail. -/
inductive CallErr where
  /-- The exception `e` propagated to the caller as itself. -/
  | raised (e : ScrErr) : CallErr
  /-- `tenacity.RetryError` wrapping the last attempt's exception `e`
  (raised when the stop condition is reached, since `reraise` is left at its
  default `False`). -/
  | retryError (e : ScrErr) : CallErr
deriving DecidableEq, Repr

/-- Predicate `tenacity.retry_if_exception_type(CloudflareChallengeError)`. -/
def retryable : ScrErr → Bool
  | .challenge => true
  | _ => false

/-- The `tenacity.retry` loop with `stop=stop_after_attempt`:
attempt `i` runs `f i`; a success returns; a non-retryable exception is
raised as-is; a retryable exception triggers a fixed-interval sleep and a new
attempt while attempts remain, and `tenacity.RetryError` (wrapping the last
exception) once `remaining = 0`, i.e. after the `maxAttempts`-th attempt. -/
def tenacityRun (f : Nat → Except ScrErr Response) :
    (remaining : Nat) → (i : Nat) → Except CallErr Response
  | remaining, i =>
    match f i with
    | .ok r => .ok r
    | .error e =>
      if retryable e then
        match remaining with
        | 0 => .error (.retryError e)
        | r + 1 => tenacityRun f r (i + 1)
      else .error (.raised e)

/-- The body of `_request` at attempt `i`: `scraper.get` yields `attempts i`
(either a response or an exception such as the Cloudflare challenge raised
inside `cloudscraper`); the commented-out 403 challenge check is absent; then
`response.raise_for_status()` raises `HTTPError` exactly for status codes in
`[400, 600)` and otherwise the response is returned unchanged. -/
def requestAttempt (attempts : Nat → Except ScrErr Response) (i : Nat) :
    Except ScrErr Response :=
  match attempts i with
  | .error e => .error e
  | .ok r =>
    if 400 ≤ r.status_code ∧ r.status_code < 600 then
      .error (.httpError r.status_code)
    else .ok r

/-- Function `_request` under its `tenacity.retry` decorator: attempt 1 runs first,
and at most `CLOUDFLARE_MAX_ATTEMPTS` attempts run in total. -/
def _request (attempts : Nat → Except ScrErr Response) :
    Except CallErr Response :=
  tenacityRun (requestAttempt attempts) (CLOUDFLARE_MAX_ATTEMPTS - 1) 1

/-! ## Audio tagger -/

/-- Function `set_m4a_meta_data` acting on the tag atoms of the opened container
(`MP4(filename)`; `add_tags` on a fresh container leaves every atom
unassigned, which the all-`none` record already represents). Note the guards:
the `alb` atom is assigned (with the `album` argument) under `if title:`, and
the `nam` atom is assigned (with the `title` argument) under `if album:`. -/
def set_m4a_meta_data (tags : M4ATags)
    (artist title album : Option String) : M4ATags :=
  let t1 := if truthy artist then { tags with art := some artist } else tags
  let t2 := if truthy title then { t1 with alb := some album } else t1
  if truthy album then { t2 with nam := some title } else t2

/-! ## Artifact writers -/

/-- A fatal error aborting the run inside a downloader. -/
inductive DlErr where
  /-- A failed `assert`. -/
  | assertionError : DlErr
  /-- `int()` applied to a string that does not parse. -/
  | valueError : DlErr
  /-- `[0]` on an empty list. -/
  | indexError : DlErr
  /-- `_request` failed with `e`. -/
  | requestError (e : CallErr) : DlErr
deriving DecidableEq, Repr

/-- Function `download_book_text`: skip when the target exists, else render the
markdown document and write it. -/
def download_book_text (fs : FS) (book_dir : String) (book : Book)
    (chapters : List Chapter) : FS :=
  let file_path := book_dir ++ "/" ++ sanitize_filepath (book.title ++ ".md")
  if fs.existsAt file_path then fs
  else fs.update file_path (create_markdown_text book chapters)

/-- Function `download_chapter_audio`: derive the filename from the `'0'`-prefixed
sequence number; skip when the file exists; assert `'m4a' in url`; GET the
signed URL through `_request` (modelled by `net`); assert status 200; write
the bytes; then tag the written container, whose pre-existing tag atoms come
from parsing the downloaded bytes (`parseTags`). Returns the exception (if
any) together with the resulting filesystem and tag store. -/
def download_chapter_audio (net : String → Except CallErr Response)
    (parseTags : String → M4ATags) (fs : FS) (ts : TagStore)
    (book_dir : String) (book : Book) (chapter_data : Chapter) :
    Option DlErr × FS × TagStore :=
  let file_path := book_dir ++ "/" ++ chapterAudioFilename chapter_data.order_no
  if fs.existsAt file_path then (none, fs, ts)
  else if !(listContainsSub "m4a".data chapter_data.signed_audio_url.data) then
    (some .assertionError, fs, ts)
  else match net chapter_data.signed_audio_url with
    | .error e => (some (.requestError e), fs, ts)
    | .ok response =>
      if response.status_code ≠ 200 then (some .assertionError, fs, ts)
      else
        let fs2 := fs.update file_path response.content
        let newTags := set_m4a_meta_data (parseTags response.content)
          (some book.author) (some chapter_data.action_title) (some book.title)
        let ts2 : TagStore := fun p => if p = file_path then newTags else ts p
        (none, fs2, ts2)

/-- Python `int(s)` for the nonnegative decimal strings that occur here:
succeeds exactly on non-empty all-digit character lists, yielding their
decimal value (same behavior as `String.toNat?`, restated over `List Char`
so that it computes structurally). -/
def pyInt (l : List Char) : Option Nat :=
  if l.isEmpty then none
  else if l.all (fun c => c.isDigit) then
    some (l.foldl (fun n c => n * 10 + (c.toNat - '0'.toNat)) 0)
  else none

/-- The key of the `sorted` call in `download_book_cover`:
`int(x.split('/')[-1].rstrip('.jpg'))`. -/
def coverKey (u : String) : Option Nat :=
  pyInt (rstripChars ['.', 'j', 'p', 'g'] (lastSegment u))

/-- Total version of `coverKey` for use inside the sort comparator; it is
only consulted after every key is known to parse. -/
def coverKeyD (u : String) : Nat := (coverKey u).getD 0

/-- The candidate cover URLs: each source's `src` and all its `srcset`
values, deduplicated as Python's `set` would (one fixed iteration order of
that set; order-independence is a theorem, not an assumption). -/
def coverCandidates (book : Book) : List String :=
  (book.sources.foldr (fun source acc => source.src :: source.srcset ++ acc) []).dedup

/-- The comparison realizing `reverse=True`: `a` comes before `b` when its
key is at least `b`'s. -/
def keyGE (a b : String) : Prop := coverKeyD b ≤ coverKeyD a

instance (a b : String) : Decidable (keyGE a b) := Nat.decLe _ _

/-- Python `sorted(urls, key=..., reverse=True)` is a stable descending
sort; insertion sort with `keyGE` places an earlier element before a
later one of equal key, so it computes the same list. -/
def sortedDescByKey (urls : List String) : List String :=
  urls.insertionSort keyGE

/-- Expression `sorted(urls, key=..., reverse=True)[0]`: raises `ValueError` when some
key fails to parse as an integer, `IndexError` on an empty list, and
otherwise returns the head of the stable descending sort by key. -/
def selectCoverUrl (urls : List String) : Except DlErr String :=
  if urls.all (fun u => (coverKey u).isSome) then
    match (sortedDescByKey urls).head? with
    | some u => .ok u
    | none => .error .indexError
  else .error .valueError

/-- Function `download_book_cover`: pick the largest-key candidate URL (this runs
before the existence check), then skip when `cover.jpg` exists, else assert
the URL ends in `.jpg`, GET it, assert status 200 and write the bytes. -/
def download_book_cover (net : String → Except CallErr Response) (fs : FS)
    (book_dir : String) (book : Book) : Option DlErr × FS :=
  match selectCoverUrl (coverCandidates book) with
  | .error e => (some e, fs)
  | .ok url =>
    let file_path := book_dir ++ "/cover.jpg"
    if fs.existsAt file_path then (none, fs)
    else if !(listEndsWith ".jpg".data url.data) then (some .assertionError, fs)
    else match net url with
      | .error e => (some (.requestError e), fs)
      | .ok response =>
        if response.status_code ≠ 200 then (some .assertionError, fs)
        else (none, fs.update file_path response.content)

/-! ## Spec-side definitions (stated from the spec's words, for comparison) -/

/-- Stated from the spec's words: the decimal form of `n` zero-padded to two
digits ("zero-padded to two digits when used in filenames/headings"). -/
def zeroPad2 (n : Nat) : String :=
  if n < 10 then "0" ++ Nat.repr n else Nat.repr n

/-! ## Concrete fixtures used by witnesses and counterexamples -/

def emptyFS : FS := fun _ => none

def fullFS : FS := fun _ => some "old-bytes"

def emptyTags : M4ATags := ⟨none, none, none⟩

def emptyTagStore : TagStore := fun _ => emptyTags

def noParsedTags : String → M4ATags := fun _ => emptyTags

def netOk200 : String → Except CallErr Response := fun _ => .ok ⟨200, "audio-bytes"⟩

def sampleBook : Book :=
  ⟨"BookTitle", "AuthorName", "https://example/book", [⟨"https://x/400.jpg", []⟩]⟩

def sampleChapter : Chapter := ⟨1, "ChapterTitle", "chapter text", "http://cdn/a.m4a"⟩

/-! ## Helper lemmas -/

theorem set_m4a_alb (tags : M4ATags) (artist title album : Option String) :
    (set_m4a_meta_data tags artist title album).alb
      = if truthy title then some album else tags.alb := by
  unfold set_m4a_meta_data
  cases truthy artist <;> cases truthy title <;> cases truthy album <;> simp

theorem set_m4a_nam (tags : M4ATags) (artist title album : Option String) :
    (set_m4a_meta_data tags artist title album).nam
      = if truthy album then some title else tags.nam := by
  unfold set_m4a_meta_data
  cases truthy artist <;> cases truthy title <;> cases truthy album <;> simp

theorem set_m4a_art (tags : M4ATags) (artist title album : Option String) :
    (set_m4a_meta_data tags artist title album).art
      = if truthy artist then some artist else tags.art := by
  unfold set_m4a_meta_data
  cases truthy artist <;> cases truthy title <;> cases truthy album <;> simp

theorem truthy_of_ne {s : String} (h : s ≠ "") : truthy (some s) = true := by
  have hE : s.isEmpty = false := by
    cases hE : s.isEmpty
    · rfl
    · rw [String.isEmpty_iff] at hE; exact absurd hE h
  simp [truthy, hE]

/-- Evaluation of `download_chapter_audio` on the successful path: target
absent, URL contains `m4a`, request succeeds with status 200. -/
theorem download_chapter_audio_success (net : String → Except CallErr Response)
    (parseTags : String → M4ATags) (fs : FS) (ts : TagStore)
    (book_dir : String) (book : Book) (chapter_data : Chapter) (r : Response)
    (hexists : fs.existsAt
      (book_dir ++ "/" ++ chapterAudioFilename chapter_data.order_no) = false)
    (hm4a : listContainsSub "m4a".data chapter_data.signed_audio_url.data = true)
    (hnet : net chapter_data.signed_audio_url = .ok r)
    (hstatus : r.status_code = 200) :
    download_chapter_audio net parseTags fs ts book_dir book chapter_data
      = (none,
         fs.update (book_dir ++ "/" ++ chapterAudioFilename chapter_data.order_no)
           r.content,
         fun p =>
          if p = book_dir ++ "/" ++ chapterAudioFilename chapter_data.order_no then
            set_m4a_meta_data (parseTags r.content)
              (some book.author) (some chapter_data.action_title) (some book.title)
          else ts p) := by
  unfold download_chapter_audio
  simp [hexists, hm4a, hnet, hstatus]

/-! ## C10 -/

/-- C10: the guards of `set_m4a_meta_data` are cross-wired at its public
interface: the album atom is assigned (receiving the `album` argument)
exactly when the `title` argument is truthy, the title atom is assigned
(receiving the `title` argument) exactly when the `album` argument is
truthy; hence a truthy `title` with `album = None` stores `None` in the
album atom and leaves the title atom unassigned, and a truthy `album` with
`title = None` stores `None` in the title atom and leaves the album atom
unassigned. -/
theorem set_m4a_meta_data_guards_cross_wired (tags : M4ATags)
    (artist title album : Option String) :
    (truthy title = true →
      (set_m4a_meta_data tags artist title album).alb = some album) ∧
    (truthy title = false →
      (set_m4a_meta_data tags artist title album).alb = tags.alb) ∧
    (truthy album = true →
      (set_m4a_meta_data tags artist title album).nam = some title) ∧
    (truthy album = false →
      (set_m4a_meta_data tags artist title album).nam = tags.nam) ∧
    (truthy title = true → album = none →
      (set_m4a_meta_data tags artist title album).alb = some none ∧
      (set_m4a_meta_data tags artist title album).nam = tags.nam) ∧
    (truthy album = true → title = none →
      (set_m4a_meta_data tags artist title album).nam = some none ∧
      (set_m4a_meta_data tags artist title album).alb = tags.alb) := by
  refine ⟨?_, ?_, ?_, ?_, ?_, ?_⟩
  · intro h; rw [set_m4a_alb, h]; rfl
  · intro h; rw [set_m4a_alb, h]; rfl
  · intro h; rw [set_m4a_nam, h]; rfl
  · intro h; rw [set_m4a_nam, h]; rfl
  · rintro h rfl
    refine ⟨by rw [set_m4a_alb, h]; rfl, by rw [set_m4a_nam]; rfl⟩
  · rintro h rfl
    refine ⟨by rw [set_m4a_nam, h]; rfl, by rw [set_m4a_alb]; rfl⟩

/-- Witness for C10 at concrete inputs: with empty tags, a non-empty title
and `album = None`, the album atom receives `None` and the title atom stays
unassigned; symmetrically for a non-empty album and `title = None`. -/
theorem set_m4a_meta_data_guards_cross_wired_witness :
    (truthy (some "T") = true ∧ truthy (some "A") = true) ∧
    (set_m4a_meta_data emptyTags none (some "T") none).alb = some none ∧
    (set_m4a_meta_data emptyTags none (some "T") none).nam = none ∧
    (set_m4a_meta_data emptyTags none none (some "A")).nam = some none ∧
    (set_m4a_meta_data emptyTags none none (some "A")).alb = none := by
  have h1 := set_m4a_meta_data_guards_cross_wired emptyTags none (some "T") none
  have h2 := set_m4a_meta_data_guards_cross_wired emptyTags none none (some "A")
  have w1 := h1.2.2.2.2.1 (by decide) rfl
  have w2 := h2.2.2.2.2.2 (by decide) rfl
  exact ⟨⟨by decide, by decide⟩, w1.1, w1.2, w2.1, w2.2⟩

/-! ## C1 -/

/-- Counterexample to C1: a chapter fully processed by
`download_chapter_audio` (empty filesystem, URL containing `m4a`, HTTP 200),
with author `"AuthorName"`, item title `"BookTitle"` and chapter title
`"ChapterTitle"` all non-empty; the album atom of the saved container holds
the item title, not the chapter title as the claim states. -/
theorem chapter_audio_album_tag_counterexample :
    (download_chapter_audio netOk200 noParsedTags emptyFS emptyTagStore
        "d" sampleBook sampleChapter).1 = none ∧
    ((download_chapter_audio netOk200 noParsedTags emptyFS emptyTagStore
        "d" sampleBook sampleChapter).2.2 "d/01.m4a").alb
      = some (some "BookTitle") ∧
    ¬ ((download_chapter_audio netOk200 noParsedTags emptyFS emptyTagStore
        "d" sampleBook sampleChapter).2.2 "d/01.m4a").alb
      = some (some sampleChapter.action_title) := by
  refine ⟨by decide, by decide, by decide⟩

/-- C1 amended: for every chapter fully processed by
`download_chapter_audio` (target absent, audio URL containing `m4a`, HTTP
200 response) with non-empty item author, item title and chapter title, the
tags written to the saved container are: artist atom ← item author (as the
claim states), album atom ← item **title** (not the chapter title), and
title atom ← **chapter** title (not the item title). -/
theorem chapter_audio_tag_mapping (net : String → Except CallErr Response)
    (parseTags : String → M4ATags) (fs : FS) (ts : TagStore)
    (book_dir : String) (book : Book) (chapter_data : Chapter) (r : Response)
    (hexists : fs.existsAt
      (book_dir ++ "/" ++ chapterAudioFilename chapter_data.order_no) = false)
    (hm4a : listContainsSub "m4a".data chapter_data.signed_audio_url.data = true)
    (hnet : net chapter_data.signed_audio_url = .ok r)
    (hstatus : r.status_code = 200)
    (hauthor : book.author ≠ "") (htitle : book.title ≠ "")
    (hchapter : chapter_data.action_title ≠ "") :
    (download_chapter_audio net parseTags fs ts book_dir book chapter_data).1
      = none ∧
    ((download_chapter_audio net parseTags fs ts book_dir book chapter_data).2.2
        (book_dir ++ "/" ++ chapterAudioFilename chapter_data.order_no)).art
      = some (some book.author) ∧
    ((download_chapter_audio net parseTags fs ts book_dir book chapter_data).2.2
        (book_dir ++ "/" ++ chapterAudioFilename chapter_data.order_no)).alb
      = some (some book.title) ∧
    ((download_chapter_audio net parseTags fs ts book_dir book chapter_data).2.2
        (book_dir ++ "/" ++ chapterAudioFilename chapter_data.order_no)).nam
      = some (some chapter_data.action_title) := by
  have hres := download_chapter_audio_success net parseTags fs ts book_dir book
    chapter_data r hexists hm4a hnet hstatus
  rw [hres]
  refine ⟨rfl, ?_, ?_, ?_⟩
  · simp only [if_pos rfl, set_m4a_art, truthy_of_ne hauthor, if_true]
  · simp only [if_pos rfl, set_m4a_alb, truthy_of_ne hchapter, if_true]
  · simp only [if_pos rfl, set_m4a_nam, truthy_of_ne htitle, if_true]

/-- Witness for the amended C1 at the concrete fixture run. -/
theorem chapter_audio_tag_mapping_witness :
    (emptyFS.existsAt "d/01.m4a" = false ∧
      listContainsSub "m4a".data sampleChapter.signed_audio_url.data = true) ∧
    ((download_chapter_audio netOk200 noParsedTags emptyFS emptyTagStore
        "d" sampleBook sampleChapter).2.2 ("d" ++ "/" ++ chapterAudioFilename 1)).art
      = some (some "AuthorName") := by
  have h := chapter_audio_tag_mapping netOk200 noParsedTags emptyFS emptyTagStore
    "d" sampleBook sampleChapter ⟨200, "audio-bytes"⟩
    (by decide) (by decide) rfl rfl (by decide) (by decide) (by decide)
  exact ⟨⟨by decide, by decide⟩, h.2.1⟩

/-! ## C2 -/

/-- Counterexample to C2: when the challenge error is raised on all 3
attempts, `_request` fails with `tenacity.RetryError` wrapping the final
challenge error — not with the challenge error itself as the claim states. -/
theorem request_exhaustion_counterexample :
    _request (fun _ => .error .challenge)
      = .error (.retryError .challenge) ∧
    _request (fun _ => .error .challenge)
      ≠ .error (.raised .challenge) := by
  refine ⟨rfl, ?_⟩
  rw [show _request (fun _ => Except.error ScrErr.challenge)
      = Except.error (CallErr.retryError ScrErr.challenge) from rfl]
  simp

/-- C2 amended: with attempt ceiling 3, if the challenge error is raised on
the first two attempts and the third attempt succeeds (a response whose
status passes `raise_for_status`), the call returns the successful response
(as the claim states); if the challenge error is raised on all 3 attempts,
the call fails with `tenacity.RetryError` wrapping the final challenge
error, not with the bare challenge error. -/
theorem request_retry_scenarios
    (attempts attempts2 : Nat → Except ScrErr Response) (r : Response)
    (h1 : attempts 1 = .error .challenge)
    (h2 : attempts 2 = .error .challenge)
    (h3 : attempts 3 = .ok r)
    (hstatus : r.status_code < 400)
    (hall : ∀ i, attempts2 i = .error .challenge) :
    _request attempts = .ok r ∧
    _request attempts2 = .error (.retryError .challenge) := by
  have hnot : ¬ (400 ≤ r.status_code ∧ r.status_code < 600) := by omega
  constructor
  · show tenacityRun (requestAttempt attempts) 2 1 = .ok r
    rw [tenacityRun]
    simp only [requestAttempt, h1, retryable]
    rw [tenacityRun]
    simp only [requestAttempt, h2, retryable]
    rw [tenacityRun]
    simp [requestAttempt, h3, if_neg hnot]
  · show tenacityRun (requestAttempt attempts2) 2 1 = _
    rw [tenacityRun]
    simp only [requestAttempt, hall 1, retryable]
    rw [tenacityRun]
    simp only [requestAttempt, hall 2, retryable]
    rw [tenacityRun]
    simp [requestAttempt, hall 3, retryable]

/-- Witness for the amended C2: concrete attempt streams realizing both
scenarios. -/
theorem request_retry_scenarios_witness :
    _request (fun i => if i ≤ 2 then .error .challenge else .ok ⟨200, "body"⟩)
      = .ok ⟨200, "body"⟩ ∧
    _request (fun _ => .error .challenge)
      = .error (.retryError .challenge) := by
  exact request_retry_scenarios
    (fun i => if i ≤ 2 then .error .challenge else .ok ⟨200, "body"⟩)
    (fun _ => .error .challenge) ⟨200, "body"⟩
    rfl rfl rfl (by decide) (fun _ => rfl)

/-! ## C7 -/

/-- Counterexample to C7: a 304 response (non-2xx, not the challenge
condition) is returned unchanged by the request wrapper instead of raising:
`requests.Response.raise_for_status` only raises for status codes in
`[400, 600)`. -/
theorem request_non2xx_counterexample :
    _request (fun _ => .ok ⟨304, "x"⟩) = .ok ⟨304, "x"⟩ ∧
    ¬ (200 ≤ 304 ∧ 304 < 300) := by
  exact ⟨rfl, by decide⟩

/-- C7 amended: for every first-attempt response, the request wrapper raises
immediately (an `HTTPError` carrying the status, with no retry: the result
does not depend on later attempts) exactly when the status code is in
`[400, 600)`, i.e. a 4xx or 5xx; every other response — the 2xx successes
as the claim states, but also 1xx/3xx — is returned unchanged. -/
theorem request_http_status_handling
    (attempts : Nat → Except ScrErr Response) (r : Response)
    (h : attempts 1 = .ok r) :
    (400 ≤ r.status_code ∧ r.status_code < 600 →
      _request attempts = .error (.raised (.httpError r.status_code))) ∧
    (¬ (400 ≤ r.status_code ∧ r.status_code < 600) →
      _request attempts = .ok r) := by
  constructor
  · intro hbad
    show tenacityRun (requestAttempt attempts) 2 1 = _
    rw [tenacityRun]
    simp [requestAttempt, h, if_pos hbad, retryable]
  · intro hgood
    show tenacityRun (requestAttempt attempts) 2 1 = _
    rw [tenacityRun]
    simp only [requestAttempt, h, if_neg hgood]

/-- Witness for the amended C7: a 404 first attempt raises `HTTPError 404`
immediately; a 200 first attempt is returned unchanged. -/
theorem request_http_status_handling_witness :
    _request (fun _ => .ok ⟨404, "x"⟩)
      = .error (.raised (.httpError 404)) ∧
    _request (fun _ => .ok ⟨200, "y"⟩) = .ok ⟨200, "y"⟩ := by
  exact ⟨(request_http_status_handling (fun _ => .ok ⟨404, "x"⟩) ⟨404, "x"⟩
      rfl).1 (by decide),
    (request_http_status_handling (fun _ => .ok ⟨200, "y"⟩) ⟨200, "y"⟩
      rfl).2 (by decide)⟩

end Blinkist

namespace Blinkist

/-! ## C3 -/

/-- Counterexample to C3: for sequence number 10 the rendered number is
`"010"` — the literal `'0'` prefix of the f-string — while the two-digit
zero-padded decimal form is `"10"`; moreover the audio filename for
sequence number 10 sorts lexicographically before the one for sequence
number 2, so filenames are not strictly increasing in sequence number. -/
theorem seq_render_counterexample :
    renderSeq 10 = "010" ∧ zeroPad2 10 = "10" ∧ renderSeq 10 ≠ zeroPad2 10 ∧
    lexLt (chapterAudioFilename 10).data (chapterAudioFilename 2).data = true := by
  refine ⟨by decide, by decide, by decide, by decide⟩

/-- C3 amended: the rendered sequence number is the literal character `'0'`
followed by the decimal form; this equals the two-digit zero-padded decimal
form only for single-digit sequence numbers, and within single-digit
sequence numbers (the dense-from-1 range the spec assumes) both the heading
number and the audio filenames are strictly increasing. -/
theorem seq_render_single_digit (m n : Nat) (hmn : m < n) (hn : n < 10) :
    renderSeq n = zeroPad2 n ∧
    lexLt (renderSeq m).data (renderSeq n).data = true ∧
    lexLt (chapterAudioFilename m).data (chapterAudioFilename n).data = true := by
  have h : ∀ b : Nat, b < 10 → ∀ a : Nat, a < b →
      renderSeq b = zeroPad2 b ∧
      lexLt (renderSeq a).data (renderSeq b).data = true ∧
      lexLt (chapterAudioFilename a).data (chapterAudioFilename b).data = true := by
    decide
  exact h n hn m hmn

/-- Witness for the amended C3 at sequence numbers 1 and 2. -/
theorem seq_render_single_digit_witness :
    (1 < 2 ∧ 2 < 10) ∧
    (renderSeq 2 = zeroPad2 2 ∧
      lexLt (renderSeq 1).data (renderSeq 2).data = true ∧
      lexLt (chapterAudioFilename 1).data (chapterAudioFilename 2).data = true) :=
  ⟨⟨by decide, by decide⟩, seq_render_single_digit 1 2 (by decide) (by decide)⟩

end Blinkist

namespace Blinkist

/-! ## C6 -/

/-- C6: each artifact writer leaves an already-existing target file's content
(and the whole filesystem) unchanged: the text and audio writers return with
no write and no error; the cover writer never changes the filesystem when
`cover.jpg` exists, and also skips with no error whenever its URL selection
succeeds (as it does on a second run over the same item). -/
theorem writers_skip_existing_files
    (net : String → Except CallErr Response) (parseTags : String → M4ATags)
    (fs : FS) (ts : TagStore) (book_dir : String) (book : Book)
    (chapters : List Chapter) (chapter_data : Chapter)
    (htext : fs.existsAt
      (book_dir ++ "/" ++ sanitize_filepath (book.title ++ ".md")) = true)
    (haudio : fs.existsAt
      (book_dir ++ "/" ++ chapterAudioFilename chapter_data.order_no) = true)
    (hcover : fs.existsAt (book_dir ++ "/cover.jpg") = true) :
    download_book_text fs book_dir book chapters = fs ∧
    download_chapter_audio net parseTags fs ts book_dir book chapter_data
      = (none, fs, ts) ∧
    (download_book_cover net fs book_dir book).2 = fs ∧
    (∀ u, selectCoverUrl (coverCandidates book) = .ok u →
      download_book_cover net fs book_dir book = (none, fs)) := by
  refine ⟨?_, ?_, ?_, ?_⟩
  · unfold download_book_text
    simp [htext]
  · unfold download_chapter_audio
    simp [haudio]
  · unfold download_book_cover
    cases hsel : selectCoverUrl (coverCandidates book) with
    | error e => rfl
    | ok u => simp [hcover]
  · intro u hsel
    unfold download_book_cover
    rw [hsel]
    simp [hcover]

/-- Witness for C6: a filesystem in which every path already exists; all
three writers leave it untouched, and the cover writer (whose URL selection
succeeds on the sample book) skips with no error. -/
theorem writers_skip_existing_files_witness :
    download_book_text fullFS "d" sampleBook [sampleChapter] = fullFS ∧
    download_chapter_audio netOk200 noParsedTags fullFS emptyTagStore
      "d" sampleBook sampleChapter = (none, fullFS, emptyTagStore) ∧
    download_book_cover netOk200 fullFS "d" sampleBook = (none, fullFS) := by
  have h := writers_skip_existing_files netOk200 noParsedTags fullFS
    emptyTagStore "d" sampleBook [sampleChapter] sampleChapter rfl rfl rfl
  exact ⟨h.1, h.2.1, h.2.2.2 "https://x/400.jpg" rfl⟩

/-! ## C9 -/

/-- C9: `download_book_cover` computes and validates the cover URL before
checking the target's existence: whenever some candidate URL's last path
segment does not parse as an integer after stripping trailing characters
drawn from `{'.', 'j', 'p', 'g'}`, it aborts with `ValueError` even though
`cover.jpg` already exists and no download would have occurred; the text and
audio writers, by contrast, return with no error (and no change) in the same
situation because their existence check precedes all other work. -/
theorem cover_validates_url_before_existence_check
    (net : String → Except CallErr Response) (parseTags : String → M4ATags)
    (fs : FS) (ts : TagStore) (book_dir : String) (book : Book)
    (chapters : List Chapter) (chapter_data : Chapter)
    (hbad : ∃ u ∈ coverCandidates book, coverKey u = none)
    (hcover : fs.existsAt (book_dir ++ "/cover.jpg") = true)
    (htext : fs.existsAt
      (book_dir ++ "/" ++ sanitize_filepath (book.title ++ ".md")) = true)
    (haudio : fs.existsAt
      (book_dir ++ "/" ++ chapterAudioFilename chapter_data.order_no) = true) :
    download_book_cover net fs book_dir book = (some .valueError, fs) ∧
    download_book_text fs book_dir book chapters = fs ∧
    download_chapter_audio net parseTags fs ts book_dir book chapter_data
      = (none, fs, ts) := by
  obtain ⟨u, hu, hkey⟩ := hbad
  have hall : (coverCandidates book).all (fun v => (coverKey v).isSome) = false := by
    cases hval : (coverCandidates book).all (fun v => (coverKey v).isSome) with
    | false => rfl
    | true =>
      have := List.all_eq_true.mp hval u hu
      rw [hkey] at this
      exact absurd this (by decide)
  have hsel : selectCoverUrl (coverCandidates book) = .error .valueError := by
    unfold selectCoverUrl
    rw [hall]
    rfl
  refine ⟨?_, ?_, ?_⟩
  · unfold download_book_cover
    rw [hsel]
  · unfold download_book_text
    simp [htext]
  · unfold download_chapter_audio
    simp [haudio]

/-- Witness for C9: a book whose only cover candidate is
`https://x/cover.jpg` (last segment strips to `"cover"`, which does not
parse); with every target file already present, the cover writer aborts
with `ValueError` while the text and audio writers skip cleanly. -/
theorem cover_validates_url_before_existence_check_witness :
    download_book_cover netOk200 fullFS "d"
      ⟨"BookTitle", "AuthorName", "https://example/book",
        [⟨"https://x/cover.jpg", []⟩]⟩ = (some .valueError, fullFS) ∧
    download_book_text fullFS "d"
      ⟨"BookTitle", "AuthorName", "https://example/book",
        [⟨"https://x/cover.jpg", []⟩]⟩ [sampleChapter] = fullFS ∧
    download_chapter_audio netOk200 noParsedTags fullFS emptyTagStore "d"
      ⟨"BookTitle", "AuthorName", "https://example/book",
        [⟨"https://x/cover.jpg", []⟩]⟩ sampleChapter
      = (none, fullFS, emptyTagStore) := by
  exact cover_validates_url_before_existence_check netOk200 noParsedTags fullFS
    emptyTagStore "d" _ [sampleChapter] sampleChapter
    ⟨"https://x/cover.jpg", by decide, by decide⟩ rfl rfl rfl

end Blinkist

namespace Blinkist

/-! ## C5 -/

/-- Concatenation of the chapter blocks in list order. -/
def docBody : List Chapter → String
  | [] => ""
  | chapter :: rest => chapterBlock chapter ++ docBody rest

theorem foldl_blocks (l : List Chapter) (t : String) :
    l.foldl (fun acc chapter => acc ++ chapterBlock chapter) t = t ++ docBody l := by
  induction l generalizing t with
  | nil => simp [docBody, String.append_empty]
  | cons c rest ih =>
    simp only [List.foldl_cons, docBody]
    rw [ih, String.append_assoc]

theorem docBody_append (l1 l2 : List Chapter) :
    docBody (l1 ++ l2) = docBody l1 ++ docBody l2 := by
  induction l1 with
  | nil => simp [docBody, String.empty_append]
  | cons c rest ih =>
    show chapterBlock c ++ docBody (rest ++ l2) = _
    rw [ih, docBody, String.append_assoc]

theorem create_markdown_text_eq (book : Book) (chapters : List Chapter) :
    create_markdown_text book chapters
      = ("# " ++ book.title ++ "\n\n" ++ ("_" ++ book.author ++ "_\n\n"))
        ++ docBody chapters ++ ("Source: " ++ book.url ++ "\n\n") := by
  show (chapters.foldl (fun acc chapter => acc ++ chapterBlock chapter)
      ("# " ++ book.title ++ "\n\n" ++ ("_" ++ book.author ++ "_\n\n")))
      ++ ("Source: " ++ book.url ++ "\n\n") = _
  rw [foldl_blocks]

def atomicHabitsBook : Book :=
  ⟨"Atomic Habits", "James Clear", "https://example/book", []⟩

def atomicHabitsChapters : List Chapter :=
  [⟨1, "Intro", "...", "u1"⟩, ⟨2, "Habit Loop", "...", "u2"⟩]

/-- C5: the text renderer is a pure function of (item, ordered chapters):
its output is the level-1 title heading, the italic author line, then each
chapter's `## Blink 0N - <chapter title>` heading and body in list order,
and finally the trailing line `Source: <item url>`; on the item
"Atomic Habits" by "James Clear" with chapters (1, "Intro") and
(2, "Habit Loop") the document starts with `# Atomic Habits`, contains
`## Blink 01 - Intro`, and ends with the `Source: https://example/book`
line. -/
theorem create_markdown_text_format (book : Book) (chapters : List Chapter) :
    (∃ rest, create_markdown_text book chapters
        = "# " ++ book.title ++ "\n\n" ++ ("_" ++ book.author ++ "_\n\n") ++ rest) ∧
    (∃ front, create_markdown_text book chapters
        = front ++ ("Source: " ++ book.url ++ "\n\n")) ∧
    (∀ chapter ∈ chapters, ∃ front rest, create_markdown_text book chapters
        = front ++ chapterBlock chapter ++ rest) ∧
    create_markdown_text atomicHabitsBook atomicHabitsChapters
      = "# Atomic Habits\n\n_James Clear_\n\n## Blink 01 - Intro\n\n...\n\n## Blink 02 - Habit Loop\n\n...\n\nSource: https://example/book\n\n" ∧
    listStartsWith "# Atomic Habits".data
      (create_markdown_text atomicHabitsBook atomicHabitsChapters).data = true ∧
    listContainsSub "## Blink 01 - Intro".data
      (create_markdown_text atomicHabitsBook atomicHabitsChapters).data = true ∧
    listEndsWith ("Source: https://example/book" ++ "\n\n").data
      (create_markdown_text atomicHabitsBook atomicHabitsChapters).data = true := by
  refine ⟨?_, ?_, ?_, by decide, by decide, by decide, by decide⟩
  · refine ⟨docBody chapters ++ ("Source: " ++ book.url ++ "\n\n"), ?_⟩
    rw [create_markdown_text_eq]
    simp [String.append_assoc]
  · exact ⟨_, create_markdown_text_eq book chapters⟩
  · intro chapter hmem
    obtain ⟨l1, l2, rfl⟩ := List.append_of_mem hmem
    refine ⟨("# " ++ book.title ++ "\n\n" ++ ("_" ++ book.author ++ "_\n\n"))
      ++ docBody l1, docBody l2 ++ ("Source: " ++ book.url ++ "\n\n"), ?_⟩
    rw [create_markdown_text_eq]
    rw [show l1 ++ chapter :: l2 = l1 ++ [chapter] ++ l2 by simp]
    rw [docBody_append, docBody_append]
    simp only [docBody, String.append_empty]
    simp [String.append_assoc]

/-- Witness for C5: the per-chapter decomposition of the concrete document
at chapter (1, "Intro"). -/
theorem create_markdown_text_format_witness :
    (⟨1, "Intro", "...", "u1"⟩ : Chapter) ∈ atomicHabitsChapters ∧
    ∃ front rest,
      create_markdown_text atomicHabitsBook atomicHabitsChapters
        = front ++ chapterBlock ⟨1, "Intro", "...", "u1"⟩ ++ rest :=
  ⟨by decide,
    (create_markdown_text_format atomicHabitsBook atomicHabitsChapters).2.2.1
      ⟨1, "Intro", "...", "u1"⟩ (by decide)⟩

/-! ## C8 -/

theorem not_invalid_of_digit_or_dash {c : Char}
    (h : c.isDigit = true ∨ c = '-') : (!(c ∈ invalidFileChars)) = true := by
  rcases h with h | rfl
  · cases hmem : decide (c ∈ invalidFileChars) with
    | false => simpa using of_decide_eq_false hmem
    | true =>
      have hm := of_decide_eq_true hmem
      simp only [invalidFileChars, List.mem_cons, List.not_mem_nil,
        or_false] at hm
      rcases hm with rfl | rfl | rfl | rfl | rfl | rfl | rfl <;>
        exact absurd h (by decide)
  · decide

/-- C8: the destination directory name is computed by a function of
(run date, item title); it has the shape
`DOWNLOAD_DIR / "<date> - <sanitized title>"`, and for a date made of
digits and dashes the full per-run directory name `<date> - <sanitized
title>` contains no filesystem-invalid character, whatever invalid
characters the raw title contains. -/
theorem get_book_dir_shape (today : String) (book : Book)
    (htoday : ∀ c ∈ today.data, c.isDigit = true ∨ c = '-') :
    get_book_dir today book
      = DOWNLOAD_DIR ++ "/" ++ (today ++ " - " ++ sanitize_filepath book.title) ∧
    (∀ c ∈ invalidFileChars,
      ¬ c ∈ (today ++ " - " ++ sanitize_filepath book.title).data) := by
  have htod : List.filter (fun c => !(c ∈ invalidFileChars)) today.data
      = today.data :=
    List.filter_eq_self.mpr (fun c hc => not_invalid_of_digit_or_dash (htoday c hc))
  have hsep : List.filter (fun c => !(c ∈ invalidFileChars))
      (" - " : String).data = (" - " : String).data := by decide
  have hfilter : (today ++ " - " ++ book.title).data.filter
      (fun c => !(c ∈ invalidFileChars))
      = today.data ++ (" - " : String).data
          ++ book.title.data.filter (fun c => !(c ∈ invalidFileChars)) := by
    rw [String.data_append, String.data_append, List.filter_append,
      List.filter_append, htod, hsep]
  constructor
  · unfold get_book_dir sanitize_filepath
    refine congrArg (fun s => DOWNLOAD_DIR ++ "/" ++ s) (String.ext ?_)
    rw [hfilter]
    rw [String.data_append, String.data_append]
  · intro c hc hmem
    rw [String.data_append, String.data_append] at hmem
    rcases List.mem_append.mp hmem with hmem' | hmem3
    · rcases List.mem_append.mp hmem' with hmem1 | hmem2
      · have := not_invalid_of_digit_or_dash (htoday c hmem1)
        simp only [Bool.not_eq_true'] at this
        exact absurd hc (of_decide_eq_false this)
      · have hsepmem : ∀ x ∈ (" - " : String).data, ¬ x ∈ invalidFileChars := by
          decide
        exact hsepmem c hmem2 hc
    · have := List.of_mem_filter hmem3
      simp only [Bool.not_eq_true'] at this
      exact absurd hc (of_decide_eq_false this)

/-- Witness for C8: run date `2026-10-12` and a title containing the invalid
characters `:` and `?`; the computed directory name drops them. -/
theorem get_book_dir_shape_witness :
    get_book_dir "2026-10-12" ⟨"Who? Me: A Story", "a", "u", []⟩
      = DOWNLOAD_DIR ++ "/"
        ++ ("2026-10-12" ++ " - "
            ++ sanitize_filepath ("Who? Me: A Story" : String)) ∧
    ¬ ':' ∈ ("2026-10-12" ++ " - "
        ++ sanitize_filepath ("Who? Me: A Story" : String)).data := by
  have h := get_book_dir_shape "2026-10-12" ⟨"Who? Me: A Story", "a", "u", []⟩
    (by decide)
  exact ⟨h.1, h.2 ':' (by decide)⟩

end Blinkist

namespace Blinkist

/-! ## C4 -/

theorem digit_not_jpg {c : Char} (h : c.isDigit = true) :
    decide (c ∈ ['.', 'j', 'p', 'g']) = false := by
  cases hmem : decide (c ∈ ['.', 'j', 'p', 'g']) with
  | false => rfl
  | true =>
    have hm := of_decide_eq_true hmem
    simp only [List.mem_cons, List.not_mem_nil, or_false] at hm
    rcases hm with rfl | rfl | rfl | rfl <;> exact absurd h (by decide)

theorem dropWhile_eq_self_of_all {p : Char → Bool} {l : List Char}
    (h : ∀ c ∈ l, p c = false) : l.dropWhile p = l := by
  cases l with
  | nil => rfl
  | cons c rest =>
    rw [List.dropWhile_cons, h c (List.mem_cons_self c rest)]
    simp

/-- Stripping the character set `{'.', 'j', 'p', 'g'}` from the right of an
all-digit run followed by the literal `".jpg"` recovers the digit run. -/
theorem rstrip_digits_jpg (ds : List Char)
    (hdig : ∀ c ∈ ds, c.isDigit = true) :
    rstripChars ['.', 'j', 'p', 'g'] (ds ++ ('.' :: 'j' :: 'p' :: ['g'])) = ds := by
  unfold rstripChars
  rw [List.reverse_append]
  show (List.dropWhile (fun c => decide (c ∈ ['.', 'j', 'p', 'g']))
    ('g' :: 'p' :: 'j' :: '.' :: ds.reverse)).reverse = ds
  have hstep : List.dropWhile (fun c => decide (c ∈ ['.', 'j', 'p', 'g']))
      ('g' :: 'p' :: 'j' :: '.' :: ds.reverse)
      = List.dropWhile (fun c => decide (c ∈ ['.', 'j', 'p', 'g']))
          ds.reverse := by
    rw [List.dropWhile_cons, List.dropWhile_cons, List.dropWhile_cons,
      List.dropWhile_cons]
    simp
  rw [hstep, dropWhile_eq_self_of_all
    (fun c hc => digit_not_jpg (hdig c (List.mem_reverse.mp hc)))]
  exact List.reverse_reverse ds

theorem pyInt_isSome (ds : List Char) (hne : ds ≠ [])
    (hdig : ∀ c ∈ ds, c.isDigit = true) : ∃ n, pyInt ds = some n := by
  unfold pyInt
  rw [if_neg, if_pos]
  · exact ⟨_, rfl⟩
  · exact List.all_eq_true.mpr hdig
  · cases ds with
    | nil => exact absurd rfl hne
    | cons c rest => simp

/-- A URL whose last path segment is a bare digit run followed by `".jpg"`
has a parsing cover key. -/
theorem coverKey_of_bare (u : String) (ds : List Char) (hne : ds ≠ [])
    (hdig : ∀ c ∈ ds, c.isDigit = true)
    (hseg : lastSegment u = ds ++ ('.' :: 'j' :: 'p' :: ['g'])) :
    ∃ n, coverKey u = some n := by
  unfold coverKey
  rw [hseg, rstrip_digits_jpg ds hdig]
  exact pyInt_isSome ds hne hdig

theorem coverKey_eq_keyD {u : String} (h : (coverKey u).isSome = true) :
    coverKey u = some (coverKeyD u) := by
  unfold coverKeyD
  obtain ⟨n, hn⟩ := Option.isSome_iff_exists.mp h
  rw [hn]
  rfl

/-- The selection returns the head of the descending stable sort, which is
a member attaining the maximal key. -/
theorem selectCoverUrl_spec (urls : List String) (hne : urls ≠ [])
    (hall : urls.all (fun u => (coverKey u).isSome) = true) :
    ∃ w, selectCoverUrl urls = .ok w ∧ w ∈ urls ∧
      ∀ v ∈ urls, coverKeyD v ≤ coverKeyD w := by
  have hperm : (sortedDescByKey urls).Perm urls :=
    List.perm_insertionSort keyGE urls
  have hsorted : List.Sorted keyGE (sortedDescByKey urls) :=
    @List.sorted_insertionSort String keyGE _
      ⟨fun a b => Nat.le_total (coverKeyD b) (coverKeyD a)⟩
      ⟨fun _ _ _ hab hbc => le_trans hbc hab⟩ urls
  cases hs : sortedDescByKey urls with
  | nil =>
    exfalso
    apply hne
    rw [← List.length_eq_zero, ← hperm.length_eq, hs]
    rfl
  | cons w rest =>
    rw [hs] at hperm hsorted
    refine ⟨w, ?_, ?_, ?_⟩
    · unfold selectCoverUrl
      rw [hall, hs]
      rfl
    · exact hperm.subset (List.mem_cons_self w rest)
    · intro v hv
      rcases List.mem_cons.mp (hperm.symm.subset hv) with rfl | hvrest
      · exact le_refl _
      · exact (List.sorted_cons.mp hsorted).1 v hvrest

/-- C4: for every non-empty deduplicated list of candidate cover URLs whose
last path segments are distinct bare integers followed by `".jpg"`, the
cover selection returns the URL with the numerically largest integer key,
and every iteration order of the set (every permutation of the list) yields
that same URL. -/
theorem selectCoverUrl_picks_max (urls : List String) (hne : urls ≠ [])
    (hnodup : urls.Nodup)
    (hbare : ∀ u ∈ urls, ∃ ds : List Char, ds ≠ [] ∧
      (∀ c ∈ ds, c.isDigit = true) ∧
      lastSegment u = ds ++ ('.' :: 'j' :: 'p' :: ['g']))
    (hdist : ∀ u ∈ urls, ∀ v ∈ urls, coverKey u = coverKey v → u = v) :
    ∃ w, selectCoverUrl urls = .ok w ∧ w ∈ urls ∧
      (∀ v ∈ urls, coverKeyD v ≤ coverKeyD w) ∧
      (∀ urls2, urls2.Perm urls → selectCoverUrl urls2 = .ok w) := by
  have hall : urls.all (fun u => (coverKey u).isSome) = true :=
    List.all_eq_true.mpr (fun u hu => by
      obtain ⟨ds, hne', hdig, hseg⟩ := hbare u hu
      obtain ⟨n, hn⟩ := coverKey_of_bare u ds hne' hdig hseg
      rw [hn]
      rfl)
  obtain ⟨w, hsel, hmem, hmax⟩ := selectCoverUrl_spec urls hne hall
  refine ⟨w, hsel, hmem, hmax, ?_⟩
  intro urls2 hp
  have hne2 : urls2 ≠ [] := by
    intro h
    apply hne
    rw [← List.length_eq_zero, ← hp.length_eq, h]
    rfl
  have hall2 : urls2.all (fun u => (coverKey u).isSome) = true :=
    List.all_eq_true.mpr (fun u hu =>
      List.all_eq_true.mp hall u (hp.subset hu))
  obtain ⟨w2, hsel2, hmem2, hmax2⟩ := selectCoverUrl_spec urls2 hne2 hall2
  have hw2 : w2 ∈ urls := hp.subset hmem2
  have heq : coverKeyD w = coverKeyD w2 :=
    le_antisymm (hmax2 w (hp.symm.subset hmem)) (hmax w2 hw2)
  have hkey : coverKey w = coverKey w2 := by
    rw [coverKey_eq_keyD (List.all_eq_true.mp hall w hmem),
      coverKey_eq_keyD (List.all_eq_true.mp hall w2 hw2), heq]
  rw [hsel2, hdist w hmem w2 hw2 hkey]

/-- Witness for C4, the spec's end-to-end cover scenario: candidates with
trailing integers 100, 400 and 250; the URL with 400 is selected, from
every iteration order. -/
theorem selectCoverUrl_picks_max_witness :
    ∃ w, selectCoverUrl
        ["https://x/100.jpg", "https://x/400.jpg", "https://x/250.jpg"]
        = .ok w ∧
      w ∈ ["https://x/100.jpg", "https://x/400.jpg", "https://x/250.jpg"] ∧
      (∀ v ∈ ["https://x/100.jpg", "https://x/400.jpg", "https://x/250.jpg"],
        coverKeyD v ≤ coverKeyD w) ∧
      (∀ urls2, urls2.Perm
          ["https://x/100.jpg", "https://x/400.jpg", "https://x/250.jpg"] →
        selectCoverUrl urls2 = .ok w) := by
  refine selectCoverUrl_picks_max _ (by decide) (by decide) ?_ (by decide)
  intro u hu
  simp only [List.mem_cons, List.not_mem_nil, or_false] at hu
  rcases hu with rfl | rfl | rfl
  · exact ⟨['1', '0', '0'], by decide, by decide, by decide⟩
  · exact ⟨['4', '0', '0'], by decide, by decide, by decide⟩
  · exact ⟨['2', '5', '0'], by decide, by decide, by decide⟩

end Blinkist
